import Mathlib

/-!
Verification of the batch-ETL delivery subsystem implemented in
`src/unix_lf_converter/jobs/etl_async_failed_success_rows.py`.

The Python job reads CSV files from object storage, transforms rows, posts
them in fixed-size batches with retry/backoff to an HTTP endpoint, tracks
per-row success/failure, archives source files and reports failed rows.
The definitions below are a shallow embedding of that file: network
behaviour, S3 behaviour and exception objects are supplied as explicit
oracles/parameters; everything else follows the Python control flow
line by line.
-/

namespace Etl

/-- Python whitespace, for `str.strip()` (the ASCII forms; every string
the job strips is ASCII). -/
def isWs (c : Char) : Bool := c = ' ' || c = '\t' || c = '\n' || c = '\r' || c = '\x0b' || c = '\x0c'

/-- Python `str.strip()`: leading and trailing whitespace removed. -/
def pyStrip (s : String) : String :=
  ⟨((s.data.dropWhile isWs).reverse.dropWhile isWs).reverse⟩

/-- Python `str.splitlines()[0]`: the characters before the first line
boundary.  For the empty string we return `""` (the Python indexing would
raise, which in every call site lands in the same generic exception
handler whose output does not depend on the message). -/
def firstLine (s : String) : String :=
  ⟨s.data.takeWhile fun c => !(c = '\n' || c = '\r')⟩

/-- Model of a Python exception object as observed by the two identical
handlers in the job (lines 161-165 and 238-241): the message passed to the
constructor (e.g. `Exception(reason)` — stored in `args` and never read by
the handlers), plus the optional `reason` and `status` attributes that the
handlers probe with `getattr`.  A plain `Exception` (and the builtin errors
`int()`/`str()` can raise) has neither attribute. -/
structure ExcObj where
  message : String
  reasonAttr : Option String
  statusAttr : Option String
deriving Repr, DecidableEq, Inhabited

/-- Lines 163-165 (and identically 239-241): the failure reason string the
handler builds from `getattr(err_, 'reason', '')` and
`getattr(err_, 'status', 'Unknown')`.  Note it ignores `e.message`. -/
def excReason (e : ExcObj) : String :=
  let raw := pyStrip (e.reasonAttr.getD "")
  let short := if raw ≠ "" then pyStrip (firstLine raw) else "Couldn't get response"
  "HTTP " ++ e.statusAttr.getD "Unknown" ++ " - " ++ short

/-- Outcome of one `session.post` network attempt: either an HTTP response
(with `resp.status` and `resp.reason`) or a raised transport-level
exception. -/
inductive AttemptOutcome where
  | response (status : Nat) (reasonField : String)
  | raised (e : ExcObj)
deriving Repr, DecidableEq

/-- `200 <= resp.status < 300` (line 148). -/
def is2xx (status : Nat) : Bool := 200 ≤ status && status < 300

/-- The exception (if any) produced by one iteration of the `try` block in
`send_batch_async` (lines 146-160): a 2xx response produces none; a non-2xx
response raises `Exception(f"HTTP {status} - {first line of resp.reason}")`
— a plain exception carrying the formatted text only as its message, with
no `reason`/`status` attributes; a transport error propagates as raised. -/
def attemptExc : AttemptOutcome → Option ExcObj
  | .response status reasonField =>
    if is2xx status then none
    else some ⟨"HTTP " ++ toString status ++ " - " ++ pyStrip (firstLine reasonField), none, none⟩
  | .raised e => some e

/-- Return value of `send_batch_async`, extended with the observable trace
needed by the claims: the number of network attempts performed and the list
of backoff delays slept (in order). -/
structure SendResult where
  success : Bool
  reason : String
  numAttempts : Nat
  sleeps : List Nat
deriving Repr, DecidableEq

/-- The `while attempt <= max_retries` loop of `send_batch_async`
(lines 145-177).  `outcome n` is the result of the `n`-th network attempt.
`fuel` is a structural-termination ticket; real calls pass
`max_retries + 1`, which bounds the number of iterations (each iteration
either returns or increments `attempt`), so the fuel-exhausted branch
coincides with the loop falling through to the fallback return of
line 180. -/
def sendLoopF (outcome : Nat → AttemptOutcome) (maxRetries : Nat) :
    Nat → Nat → Nat → List Nat → SendResult
  | 0, attempt, _delay, sleeps => ⟨false, "Unknown failure", attempt, sleeps⟩
  | fuel + 1, attempt, delay, sleeps =>
    if attempt ≤ maxRetries then
      match attemptExc (outcome attempt) with
      | none => ⟨true, "", attempt + 1, sleeps⟩
      | some e =>
        if maxRetries < attempt + 1 then ⟨false, excReason e, attempt + 1, sleeps⟩
        else sendLoopF outcome maxRetries fuel (attempt + 1) (delay * 2) (sleeps ++ [delay])
    else ⟨false, "Unknown failure", attempt, sleeps⟩

/-- `send_batch_async(session, batch, endpoint, max_retries)` (lines
139-180): attempt counter starts at 0, initial backoff delay 2. -/
def send_batch_async (outcome : Nat → AttemptOutcome) (max_retries : Nat) : SendResult :=
  sendLoopF outcome max_retries (max_retries + 1) 0 2 []

/-- A canonical record as produced by `transform_row` (lines 124-135).  The
field mapping itself is a pure dictionary construction; the only facts the
claims need are the identity of the originating row (we let the generated
`RequestId` correlate with the row id) — so we model the record by that
correlation id. -/
structure Canonical where
  rid : Nat
deriving Repr, DecidableEq

/-- A raw input row (one pandas row of the concatenated dataframe): its
identity, the `source_file_key` column stamped by `fetch_all_csvs`
(line 99), and whether `transform_row` raises on it (`int()`/`str()`
conversions on lines 128/133 can raise; such builtin exceptions carry no
`reason`/`status` attributes, which is what `ExcObj` records). -/
structure RawRow where
  rid : Nat
  sourceKey : String
  transformExc : Option ExcObj
deriving Repr, DecidableEq

/-- The canonical record `transform_row` builds for a row it accepts. -/
def toCanon (r : RawRow) : Canonical := ⟨r.rid⟩

/-- `transform_row(row)` (lines 124-135): either the canonical record or
the raised exception. -/
def transform_row (r : RawRow) : Except ExcObj Canonical :=
  match r.transformExc with
  | some e => Except.error e
  | none => Except.ok (toCanon r)

/-- The canonical records of the rows that transform successfully, in row
order. -/
def transformedOf (rows : List RawRow) : List Canonical :=
  rows.filterMap fun r => (transform_row r).toOption

/-- The rows whose transformation raises, in row order. -/
def tfailedOf (rows : List RawRow) : List RawRow :=
  rows.filter fun r => (transform_row r).toOption.isNone

/-- State of the dispatch loop in `post_batches_with_success_tracking`
(lines 223-284).  `posts` is the trace of payloads handed to
`send_batch_async` (one entry per call, in order) and `tfailRows` the rows
whose transform raised — both pure bookkeeping used to state properties;
the remaining fields are the Python locals. -/
structure LoopState where
  batch_rows : List RawRow
  batch_payload : List Canonical
  failed_rows : List (RawRow × String)
  successful_rows : List RawRow
  failure_streak : Nat
  broken : Bool
  posts : List (List Canonical)
  tfailRows : List RawRow
deriving Repr, DecidableEq

/-- Locals at loop entry (lines 224-229). -/
def initState : LoopState :=
  { batch_rows := [], batch_payload := [], failed_rows := [], successful_rows := []
    failure_streak := 0, broken := false, posts := [], tfailRows := [] }

/-- One iteration of the `for` body (lines 232-264).  `post n` is the
`(success, failure_reason)` pair returned by the `n`-th call to
`send_batch_async` in this run.  A failed transform appends the original
raw row to `failed_rows` with the handler's reason and continues.  A
transformed row joins the current batch; a full batch is posted: on
success the batch rows extend `successful_rows` and the streak resets, on
failure they extend `failed_rows` with the returned reason and the streak
increments — and when the streak reaches `mfs` the loop breaks *without*
clearing `batch_payload`/`batch_rows` (the `break` on line 262 skips
lines 263-264). -/
def stepRow (post : Nat → Bool × String) (batch_size mfs : Nat)
    (st : LoopState) (row : RawRow) : LoopState :=
  match transform_row row with
  | .error e =>
    { st with failed_rows := st.failed_rows ++ [(row, excReason e)],
              tfailRows := st.tfailRows ++ [row] }
  | .ok canon =>
    if batch_size ≤ (st.batch_payload ++ [canon]).length then
      if (post st.posts.length).1 then
        { st with posts := st.posts ++ [st.batch_payload ++ [canon]],
                  successful_rows := st.successful_rows ++ (st.batch_rows ++ [row]),
                  failure_streak := 0, batch_payload := [], batch_rows := [] }
      else if mfs ≤ st.failure_streak + 1 then
        { st with posts := st.posts ++ [st.batch_payload ++ [canon]],
                  batch_payload := st.batch_payload ++ [canon],
                  batch_rows := st.batch_rows ++ [row],
                  failed_rows := st.failed_rows
                    ++ (st.batch_rows ++ [row]).map (fun r => (r, (post st.posts.length).2)),
                  failure_streak := st.failure_streak + 1, broken := true }
      else
        { st with posts := st.posts ++ [st.batch_payload ++ [canon]],
                  failed_rows := st.failed_rows
                    ++ (st.batch_rows ++ [row]).map (fun r => (r, (post st.posts.length).2)),
                  failure_streak := st.failure_streak + 1,
                  batch_payload := [], batch_rows := [] }
    else
      { st with batch_payload := st.batch_payload ++ [canon],
                batch_rows := st.batch_rows ++ [row] }

/-- The `for i, (_, row) in enumerate(df.iterrows())` loop (lines 232-264):
processes rows in order, stopping as soon as the breaker has tripped. -/
def runLoop (post : Nat → Bool × String) (batch_size mfs : Nat) :
    LoopState → List RawRow → LoopState
  | st, [] => st
  | st, row :: rest =>
    if st.broken then st
    else runLoop post batch_size mfs (stepRow post batch_size mfs st row) rest

/-- The final partial-batch drain (lines 266-273): if `batch_payload` is
non-empty it is posted once more, unconditionally — the source does not
consult the breaker here. -/
def drainBatch (post : Nat → Bool × String) (st : LoopState) : LoopState :=
  if st.batch_payload.isEmpty then st
  else if (post st.posts.length).1 then
    { st with posts := st.posts ++ [st.batch_payload],
              successful_rows := st.successful_rows ++ st.batch_rows }
  else
    { st with posts := st.posts ++ [st.batch_payload],
              failed_rows := st.failed_rows
                ++ st.batch_rows.map (fun r => (r, (post st.posts.length).2)) }

/-- `MAX_RETRY = 2` (line 43); `post_batches_with_success_tracking` uses it
as `max_failure_streak` (line 229). -/
def MAX_RETRY : Nat := 2

/-- `BATCH_SIZE = 2` (line 40). -/
def BATCH_SIZE : Nat := 2

/-- `post_batches_with_success_tracking(df, endpoint, batch_size)`
(lines 223-284): run the row loop, then drain. -/
def post_batches_with_success_tracking (post : Nat → Bool × String)
    (batch_size : Nat) (rows : List RawRow) : LoopState :=
  drainBatch post (runLoop post batch_size MAX_RETRY initState rows)

/-- Total number of row slots sent through `send_batch_async` so far (sum
of posted batch sizes). -/
def dispatchedCount (st : LoopState) : Nat := (st.posts.map List.length).sum

/-- Accounting invariant of the loop state: the pending payload mirrors the
pending rows, `len(successful)+len(failed)` equals rows dispatched plus
transform failures, and per row-id the successful/failed occurrences match
the dispatched/transform-failed occurrences. -/
def CntInv (st : LoopState) : Prop :=
  st.batch_payload = st.batch_rows.map toCanon ∧
  st.successful_rows.length + st.failed_rows.length
    = dispatchedCount st + st.tfailRows.length ∧
  ∀ n : Nat,
    (st.successful_rows.map RawRow.rid).count n
      + (st.failed_rows.map fun p => p.1.rid).count n
    = (st.posts.flatten.map Canonical.rid).count n
      + (st.tfailRows.map RawRow.rid).count n

/-- Structural invariant of a loop state that has never broken, after
consuming the rows `seen`: the pending payload mirrors the pending rows
and is below `batch_size`, every posted batch is exactly full, and the
posted payloads followed by the pending payload are exactly the
transformed records of `seen` in order. -/
def GoodState (bs : Nat) (seen : List RawRow) (st : LoopState) : Prop :=
  st.broken = false ∧
  st.batch_payload = st.batch_rows.map toCanon ∧
  st.batch_payload.length < bs ∧
  (∀ b ∈ st.posts, b.length = bs) ∧
  st.posts.flatten ++ st.batch_payload = transformedOf seen ∧
  st.tfailRows = tfailedOf seen

/-- An S3 side effect performed by `archive_files`. -/
inductive S3Op where
  | copy (src : String) (dst : String)
  | del (key : String)
deriving Repr, DecidableEq

/-- Python `key.split("/")[-1]` (line 293): the characters after the last
`'/'` (the whole string if there is none). -/
def lastComponent (key : String) : String :=
  ⟨(key.data.reverse.takeWhile fun c => c ≠ '/').reverse⟩

/-- `archive_key = f"{prefix}/archive/{filename}"` (line 294). -/
def archive_key_of (pfx key : String) : String :=
  pfx ++ "/archive/" ++ lastComponent key

/-- The S3 operations the `try` block of `archive_files` performs for one
key (lines 296-298), given oracles saying whether `copy_object` /
`delete_object` raise for that key: a raising copy performs nothing
further; a raising delete still performed the copy. -/
def archOpsFor (copyFail delFail : String → Bool) (pfx key : String) : List S3Op :=
  if copyFail key then []
  else if delFail key then [S3Op.copy key (archive_key_of pfx key)]
  else [S3Op.copy key (archive_key_of pfx key), S3Op.del key]

/-- Result of `archive_files`: the S3 operation trace plus the `archived`
and `failed` local lists (lines 289-313). -/
structure ArchiveResult where
  ops : List S3Op
  archived : List String
  failedKeys : List String
deriving Repr, DecidableEq

/-- `archive_files(bucket, keys, prefix)` (lines 288-313): per key, copy to
the archive key then delete the original; an exception on either call is
logged, the key is recorded in `failed`, and processing continues with the
remaining keys. -/
def archive_files (copyFail delFail : String → Bool) (keys : List String)
    (pfx : String) : ArchiveResult :=
  match keys with
  | [] => ⟨[], [], []⟩
  | key :: rest =>
    let tail := archive_files copyFail delFail rest pfx
    if copyFail key then ⟨tail.ops, tail.archived, key :: tail.failedKeys⟩
    else if delFail key then
      ⟨S3Op.copy key (archive_key_of pfx key) :: tail.ops, tail.archived,
        key :: tail.failedKeys⟩
    else
      ⟨S3Op.copy key (archive_key_of pfx key) :: S3Op.del key :: tail.ops,
        archive_key_of pfx key :: tail.archived, tail.failedKeys⟩

/-- Python `str.replace(".csv", "")`: removes every (non-overlapping,
left-to-right) occurrence of `".csv"`. -/
def removeCsv : List Char → List Char
  | '.' :: 'c' :: 's' :: 'v' :: rest => removeCsv rest
  | c :: rest => c :: removeCsv rest
  | [] => []

/-- `failed_key = f"{prefix}/failed/{original_filename}_failed_rows_{timestamp}.csv"`
(lines 200-202), where `original_filename` is the last path component with
every occurrence of `".csv"` removed (line 200). -/
def failed_artifact_key (pfx ts key : String) : String :=
  pfx ++ "/failed/" ++ (⟨removeCsv (lastComponent key).data⟩ : String)
    ++ "_failed_rows_" ++ ts ++ ".csv"

/-- The `for source_key, group_df in df.groupby(...)` loop of
`upload_failed_rows_to_s3` (lines 194-219): each group is serialized and
put to its artifact key inside a `try`; a raising `put_object` is logged
and the loop continues with the next group.  The result is the list of
successful puts `(artifact key, serialized rows)` in group order. -/
def uploadLoop (writeFail : String → Bool) (ts pfx : String) :
    List (String × List (RawRow × String)) → List (String × List (RawRow × String))
  | [] => []
  | (k, g) :: rest =>
    if writeFail (failed_artifact_key pfx ts k) then uploadLoop writeFail ts pfx rest
    else (failed_artifact_key pfx ts k, g) :: uploadLoop writeFail ts pfx rest

/-- `upload_failed_rows_to_s3(failed_rows, bucket, prefix)` (lines
184-219).  Failed rows are `(row, failureReason)` pairs; every row carries
`source_file_key` (stamped in `fetch_all_csvs`), so the missing-column
early return (lines 190-192) does not fire.  Groups are formed per
distinct `source_file_key`, each group holding exactly the failed rows of
that source file in their original order.  (pandas `groupby` emits groups
in sorted key order; no stated property depends on group order, so the
model iterates the distinct keys in `List.dedup` order instead.)  The
single generation timestamp `ts` stands for the per-group `utcnow()`
calls. -/
def upload_failed_rows_to_s3 (writeFail : String → Bool) (ts : String)
    (failed_rows : List (RawRow × String)) (pfx : String) :
    List (String × List (RawRow × String)) :=
  if failed_rows.isEmpty then []
  else
    uploadLoop writeFail ts pfx
      (((failed_rows.map fun fr => fr.1.sourceKey).dedup).map
        fun k => (k, failed_rows.filter fun fr => fr.1.sourceKey == k))

/-- Classification of one pandas chunk yielded by
`pd.read_csv(..., chunksize=5000)` as the loop of `fetch_all_csvs` sees it
(lines 90-100): empty (skipped), failing required-column validation
(breaks the chunk loop), or valid with its rows. -/
inductive Chunk where
  | empty
  | invalid
  | valid (rows : List RawRow)
deriving Repr, DecidableEq

/-- What reading one S3 object yields: the chunks the iterator produces in
order, and whether `get_object`/the chunk iterator raises after producing
them (a raise before any chunk is `chunks = []`, `raises = true`). -/
structure FileRead where
  chunks : List Chunk
  raises : Bool
deriving Repr, DecidableEq

/-- The chunk dataframes appended for one file (lines 90-100): empty
chunks are skipped, an invalid chunk stops the loop, a valid chunk is
stamped with `chunk["source_file_key"] = key` and appended. -/
def collectChunks (key : String) : List Chunk → List (List RawRow)
  | [] => []
  | Chunk.empty :: rest => collectChunks key rest
  | Chunk.invalid :: _ => []
  | Chunk.valid rows :: rest =>
    (rows.map fun r => { r with sourceKey := key }) :: collectChunks key rest

/-- Whether the chunk loop ends via the `break` of line 97 (an invalid
chunk is reached). -/
def walkBreaks : List Chunk → Bool
  | [] => false
  | Chunk.empty :: rest => walkBreaks rest
  | Chunk.invalid :: _ => true
  | Chunk.valid _ :: rest => walkBreaks rest

/-- Python `key.endswith('.csv')`. -/
def endsWithCsv (key : String) : Bool :=
  ['v', 's', 'c', '.'].isPrefixOf key.data.reverse

/-- The key filter of line 84: `.csv` suffix and no `/` after the folder
part (`'/' in key[len(prefix) + 1:]`; Python slices strings by code
point, hence the character-level drop). -/
def selectsKey (pfx key : String) : Bool :=
  endsWithCsv key && !((key.data.drop (pfx.data.length + 1)).contains '/')

/-- The pagination loop of `fetch_all_csvs` (lines 80-110): for each
selected key, read it; if the chunk loop breaks (invalid columns) the key
still reaches `processed_keys.append` (line 102); if instead the read
raises, the appended chunks stay in `dataframes` but the key is skipped.
Returns the appended chunk dataframes and `processed_keys`, in order. -/
def fetchGo (readOf : String → FileRead) (pfx : String) :
    List String → List (List RawRow) × List String
  | [] => ([], [])
  | key :: rest =>
    let tail := fetchGo readOf pfx rest
    if selectsKey pfx key then
      let fr := readOf key
      let mine := collectChunks key fr.chunks
      if walkBreaks fr.chunks || !fr.raises then
        (mine ++ tail.1, key :: tail.2)
      else (mine ++ tail.1, tail.2)
    else tail

/-- `fetch_all_csvs(bucket, prefix)` (lines 73-121): when no chunk at all
was appended the function returns an empty dataframe *and an empty key
list* (line 119), discarding `processed_keys`; otherwise the concatenated
rows and the processed keys. -/
def fetch_all_csvs (readOf : String → FileRead) (pfx : String)
    (listing : List String) : List RawRow × List String :=
  let res := fetchGo readOf pfx listing
  if res.1.isEmpty then ([], []) else (res.1.flatten, res.2)

/-- The observable outcome of one `main()` run (lines 316-343). -/
structure MainResult where
  rows : List RawRow
  csv_keys : List String
  successful : List RawRow
  failed : List (RawRow × String)
  archOps : List S3Op
  arch : ArchiveResult
  puts : List (String × List (RawRow × String))
deriving Repr, DecidableEq

/-- `main()` (lines 316-343): fetch, post batches (with the module
constants `BATCH_SIZE` and `MAX_RETRY`), archive the processed keys
unconditionally, then upload failed rows only when there are any. -/
def main_run (readOf : String → FileRead) (listing : List String)
    (post : Nat → Bool × String) (copyFail delFail writeFail : String → Bool)
    (ts pfx : String) : MainResult :=
  let fetched := fetch_all_csvs readOf pfx listing
  let st := post_batches_with_success_tracking post BATCH_SIZE fetched.1
  let arch := archive_files copyFail delFail fetched.2 pfx
  let puts := if st.failed_rows.isEmpty then []
    else upload_failed_rows_to_s3 writeFail ts st.failed_rows pfx
  ⟨fetched.1, fetched.2, st.successful_rows, st.failed_rows, arch.ops, arch, puts⟩

/-! Concrete inputs used by counterexamples and witnesses. -/

/-- A post oracle for which every batch post fails (every attempt of every
`send_batch_async` call exhausts its retries). -/
def failPost : Nat → Bool × String := fun _ => (false, "HTTP Unknown - Couldn't get response")

/-- A post oracle for which every batch post succeeds. -/
def okPost : Nat → Bool × String := fun _ => (true, "")

/-- A row that transforms successfully. -/
def rowOk (n : Nat) : RawRow := ⟨n, "p/a.csv", none⟩

/-- The exception a malformed `Active_Flag` produces in `transform_row`:
a builtin `ValueError`, which has no `reason`/`status` attributes. -/
def rowBadExc : ExcObj := ⟨"invalid literal for int() with base 10", none, none⟩

/-- A row on which `transform_row` raises. -/
def rowBad : RawRow := ⟨9, "p/a.csv", some rowBadExc⟩

/-- Four well-formed rows: two full batches at `BATCH_SIZE = 2`. -/
def rows4 : List RawRow := [rowOk 1, rowOk 2, rowOk 3, rowOk 4]

/-- Three well-formed rows: one full batch plus a partial drain. -/
def rows3 : List RawRow := [rowOk 1, rowOk 2, rowOk 3]

/-- A server that answers 500 "Internal Server Error" to every attempt. -/
def http500 : Nat → AttemptOutcome := fun _ => .response 500 "Internal Server Error"

/-- A server that answers 200 to every attempt. -/
def okOutcome : Nat → AttemptOutcome := fun _ => .response 200 "OK"

/-- An S3 oracle under which no operation raises. -/
def noFail : String → Bool := fun _ => false

/-- A listing with a single CSV whose only chunk fails column
validation. -/
def badReadOf : String → FileRead := fun _ => ⟨[Chunk.invalid], false⟩

/-- One-key listing for the `badReadOf` scenario. -/
def oneListing : List String := ["p/a.csv"]

/-- Witness fetch input: `p/a.csv` yields a valid chunk and then an
invalid one (break; still processed); `p/b.csv` yields a valid chunk and
then its read raises (rows collected, key not processed). -/
def wReadOf : String → FileRead := fun k =>
  if k == "p/a.csv" then ⟨[Chunk.valid [rowOk 1], Chunk.invalid], false⟩
  else ⟨[Chunk.valid [rowOk 2]], true⟩

/-- Two-key listing for `wReadOf`. -/
def wListing : List String := ["p/a.csv", "p/b.csv"]

/-- A loop state holding one pending row, as after processing `rowOk 1`
with batch size 2. -/
def stOne : LoopState :=
  { initState with batch_payload := [⟨1⟩], batch_rows := [rowOk 1] }

/-- Failed rows originating from two distinct source files. -/
def wFrows : List (RawRow × String) :=
  [(rowOk 1, "HTTP Unknown - Couldn't get response"),
   (⟨2, "p/b.csv", none⟩, "HTTP Unknown - Couldn't get response")]

/-- One-key list for the archiver witness. -/
def oneKeyList : List String := ["p/a.csv"]

/-! ## Helper lemmas -/

theorem transform_ok_eq {row : RawRow} {c : Canonical}
    (h : transform_row row = Except.ok c) : c = toCanon row := by
  unfold transform_row at h
  cases hre : row.transformExc with
  | some e => rw [hre] at h; cases h
  | none => rw [hre] at h; injection h with h2; exact h2.symm

theorem sendLoopF_succ_case (outcome : Nat → AttemptOutcome) (R k : Nat)
    (hks : attemptExc (outcome k) = none)
    (hfail : ∀ j, j < k → (attemptExc (outcome j)).isSome = true)
    (hkR : k ≤ R) :
    ∀ m a, a ≤ k → k - a = m →
      sendLoopF outcome R (R + 1 - a) a (2 ^ (a + 1))
          ((List.range a).map fun i => 2 ^ (i + 1)) =
        ⟨true, "", k + 1, (List.range k).map fun i => 2 ^ (i + 1)⟩ := by
  intro m
  induction m with
  | zero =>
    intro a hak hm
    have hak' : a = k := by omega
    subst hak'
    have h1 : R + 1 - a = (R - a) + 1 := by omega
    rw [h1]
    simp only [sendLoopF]
    rw [if_pos (by omega : a ≤ R), hks]
  | succ n ih =>
    intro a hak hm
    have hlt : a < k := by omega
    have h1 : R + 1 - a = (R - a) + 1 := by omega
    rw [h1]
    simp only [sendLoopF]
    rw [if_pos (by omega : a ≤ R)]
    obtain ⟨e, he⟩ := Option.isSome_iff_exists.mp (hfail a hlt)
    rw [he]
    simp only
    rw [if_neg (by omega : ¬ R < a + 1)]
    have h2 : R - a = R + 1 - (a + 1) := by omega
    have h3 : 2 ^ (a + 1) * 2 = 2 ^ (a + 1 + 1) := by ring
    have h4 : ((List.range a).map fun i => (2:Nat) ^ (i + 1)) ++ [2 ^ (a + 1)]
        = (List.range (a + 1)).map fun i => 2 ^ (i + 1) := by
      rw [List.range_succ, List.map_append]; rfl
    rw [h2, h3, h4]
    exact ih (a + 1) (by omega) (by omega)

theorem sendLoopF_fail_case (outcome : Nat → AttemptOutcome) (R : Nat)
    (hfail : ∀ j, j ≤ R → (attemptExc (outcome j)).isSome = true) :
    ∀ m a, a ≤ R → R - a = m →
      sendLoopF outcome R (R + 1 - a) a (2 ^ (a + 1))
          ((List.range a).map fun i => 2 ^ (i + 1)) =
        ⟨false, excReason ((attemptExc (outcome R)).getD default), R + 1,
          (List.range R).map fun i => 2 ^ (i + 1)⟩ := by
  intro m
  induction m with
  | zero =>
    intro a haR hm
    have hak : R = a := by omega
    subst hak
    have h1 : R + 1 - R = (R - R) + 1 := by omega
    rw [h1]
    simp only [sendLoopF]
    rw [if_pos (le_refl R)]
    obtain ⟨e, he⟩ := Option.isSome_iff_exists.mp (hfail R (le_refl R))
    rw [he]
    simp only
    rw [if_pos (show R < R + 1 by omega)]
    rfl
  | succ n ih =>
    intro a haR hm
    have hlt : a < R := by omega
    have h1 : R + 1 - a = (R - a) + 1 := by omega
    rw [h1]
    simp only [sendLoopF]
    rw [if_pos (by omega : a ≤ R)]
    obtain ⟨e, he⟩ := Option.isSome_iff_exists.mp (hfail a (by omega))
    rw [he]
    simp only
    rw [if_neg (by omega : ¬ R < a + 1)]
    have h2 : R - a = R + 1 - (a + 1) := by omega
    have h3 : 2 ^ (a + 1) * 2 = 2 ^ (a + 1 + 1) := by ring
    have h4 : ((List.range a).map fun i => (2:Nat) ^ (i + 1)) ++ [2 ^ (a + 1)]
        = (List.range (a + 1)).map fun i => 2 ^ (i + 1) := by
      rw [List.range_succ, List.map_append]; rfl
    rw [h2, h3, h4]
    exact ih (a + 1) (by omega) (by omega)

theorem stepRow_tfail (post : Nat → Bool × String) (bs mfs : Nat) (st : LoopState)
    (row : RawRow) (e : ExcObj) (htr : transform_row row = Except.error e) :
    stepRow post bs mfs st row
      = { st with failed_rows := st.failed_rows ++ [(row, excReason e)],
                  tfailRows := st.tfailRows ++ [row] } := by
  unfold stepRow
  rw [htr]

theorem stepRow_nofull (post : Nat → Bool × String) (bs mfs : Nat) (st : LoopState)
    (row : RawRow) (c : Canonical) (htr : transform_row row = Except.ok c)
    (hnf : ¬ bs ≤ st.batch_payload.length + 1) :
    stepRow post bs mfs st row
      = { st with batch_payload := st.batch_payload ++ [c],
                  batch_rows := st.batch_rows ++ [row] } := by
  unfold stepRow
  rw [htr]
  simp only [List.length_append, List.length_cons, List.length_nil, Nat.zero_add]
  rw [if_neg hnf]

theorem stepRow_full_succ (post : Nat → Bool × String) (bs mfs : Nat) (st : LoopState)
    (row : RawRow) (c : Canonical) (htr : transform_row row = Except.ok c)
    (hf : bs ≤ st.batch_payload.length + 1) (hp : (post st.posts.length).1 = true) :
    stepRow post bs mfs st row
      = { st with posts := st.posts ++ [st.batch_payload ++ [c]],
                  successful_rows := st.successful_rows ++ (st.batch_rows ++ [row]),
                  failure_streak := 0, batch_payload := [], batch_rows := [] } := by
  unfold stepRow
  rw [htr]
  simp only [List.length_append, List.length_cons, List.length_nil, Nat.zero_add]
  rw [if_pos hf, if_pos hp]

theorem stepRow_full_fail_break (post : Nat → Bool × String) (bs mfs : Nat) (st : LoopState)
    (row : RawRow) (c : Canonical) (htr : transform_row row = Except.ok c)
    (hf : bs ≤ st.batch_payload.length + 1) (hp : (post st.posts.length).1 = false)
    (hbr : mfs ≤ st.failure_streak + 1) :
    stepRow post bs mfs st row
      = { st with posts := st.posts ++ [st.batch_payload ++ [c]],
                  batch_payload := st.batch_payload ++ [c],
                  batch_rows := st.batch_rows ++ [row],
                  failed_rows := st.failed_rows
                    ++ (st.batch_rows ++ [row]).map (fun r => (r, (post st.posts.length).2)),
                  failure_streak := st.failure_streak + 1, broken := true } := by
  unfold stepRow
  rw [htr]
  simp only [List.length_append, List.length_cons, List.length_nil, Nat.zero_add, hp]
  rw [if_pos hf]
  simp only [Bool.false_eq_true, if_false]
  rw [if_pos hbr]

theorem stepRow_full_fail_cont (post : Nat → Bool × String) (bs mfs : Nat) (st : LoopState)
    (row : RawRow) (c : Canonical) (htr : transform_row row = Except.ok c)
    (hf : bs ≤ st.batch_payload.length + 1) (hp : (post st.posts.length).1 = false)
    (hbr : ¬ mfs ≤ st.failure_streak + 1) :
    stepRow post bs mfs st row
      = { st with posts := st.posts ++ [st.batch_payload ++ [c]],
                  failed_rows := st.failed_rows
                    ++ (st.batch_rows ++ [row]).map (fun r => (r, (post st.posts.length).2)),
                  failure_streak := st.failure_streak + 1,
                  batch_payload := [], batch_rows := [] } := by
  unfold stepRow
  rw [htr]
  simp only [List.length_append, List.length_cons, List.length_nil, Nat.zero_add, hp]
  rw [if_pos hf]
  simp only [Bool.false_eq_true, if_false]
  rw [if_neg hbr]

theorem drainBatch_empty (post : Nat → Bool × String) (st : LoopState)
    (h : st.batch_payload.isEmpty = true) : drainBatch post st = st := by
  unfold drainBatch
  rw [if_pos h]

theorem drainBatch_succ (post : Nat → Bool × String) (st : LoopState)
    (h : st.batch_payload.isEmpty = false) (hp : (post st.posts.length).1 = true) :
    drainBatch post st
      = { st with posts := st.posts ++ [st.batch_payload],
                  successful_rows := st.successful_rows ++ st.batch_rows } := by
  unfold drainBatch
  rw [h, if_neg (by simp), if_pos hp]

theorem drainBatch_fail (post : Nat → Bool × String) (st : LoopState)
    (h : st.batch_payload.isEmpty = false) (hp : (post st.posts.length).1 = false) :
    drainBatch post st
      = { st with posts := st.posts ++ [st.batch_payload],
                  failed_rows := st.failed_rows
                    ++ st.batch_rows.map (fun r => (r, (post st.posts.length).2)) } := by
  unfold drainBatch
  rw [h, if_neg (by simp), hp]
  simp only [Bool.false_eq_true, if_false]

theorem drainBatch_broken (post : Nat → Bool × String) (st : LoopState) :
    (drainBatch post st).broken = st.broken := by
  unfold drainBatch
  split
  · rfl
  · split <;> rfl

theorem runLoop_nil (post : Nat → Bool × String) (bs mfs : Nat) (st : LoopState) :
    runLoop post bs mfs st [] = st := rfl

theorem runLoop_cons (post : Nat → Bool × String) (bs mfs : Nat) (st : LoopState)
    (row : RawRow) (rest : List RawRow) :
    runLoop post bs mfs st (row :: rest)
      = if st.broken = true then st
        else runLoop post bs mfs (stepRow post bs mfs st row) rest := rfl

theorem runLoop_cons_active (post : Nat → Bool × String) (bs mfs : Nat) (st : LoopState)
    (row : RawRow) (rest : List RawRow) (h : st.broken = false) :
    runLoop post bs mfs st (row :: rest)
      = runLoop post bs mfs (stepRow post bs mfs st row) rest := by
  rw [runLoop_cons, h]
  simp

theorem runLoop_broken (post : Nat → Bool × String) (bs mfs : Nat) (st : LoopState)
    (rows : List RawRow) (h : st.broken = true) : runLoop post bs mfs st rows = st := by
  cases rows with
  | nil => rfl
  | cons row rest => rw [runLoop_cons, h]; simp

theorem toCanon_rid (r : RawRow) : (toCanon r).rid = r.rid := rfl

theorem map_comp_toCanon (l : List RawRow) :
    List.map (Canonical.rid ∘ toCanon) l = List.map RawRow.rid l := by
  induction l with
  | nil => rfl
  | cons a t ih => simp only [List.map_cons, Function.comp_apply, toCanon_rid, ih]

theorem map_fst_rid_pair (l : List RawRow) (s : String) :
    List.map ((fun p : RawRow × String => p.1.rid) ∘ fun r => (r, s)) l
      = List.map RawRow.rid l := by
  induction l with
  | nil => rfl
  | cons a t ih => simp only [List.map_cons, Function.comp_apply, ih]

theorem cntInv_init : CntInv initState := ⟨rfl, rfl, fun _ => rfl⟩

theorem cntInv_step (post : Nat → Bool × String) (bs mfs : Nat) (st : LoopState)
    (row : RawRow) (h : CntInv st) : CntInv (stepRow post bs mfs st row) := by
  obtain ⟨hlink, hlen, hcnt⟩ := h
  cases htr : transform_row row with
  | error e =>
    rw [stepRow_tfail post bs mfs st row e htr]
    refine ⟨hlink, ?_, ?_⟩
    · simp only [dispatchedCount, List.length_append, List.length_cons,
        List.length_nil] at hlen ⊢
      omega
    · intro n
      have hc := hcnt n
      simp only [List.map_append, List.count_append, List.map_cons, List.map_nil,
        List.count_cons, List.count_nil] at hc ⊢
      omega
  | ok c =>
    have hceq : c = toCanon row := transform_ok_eq htr
    by_cases hf : bs ≤ st.batch_payload.length + 1
    · by_cases hp : (post st.posts.length).1 = true
      · rw [stepRow_full_succ post bs mfs st row c htr hf hp]
        refine ⟨rfl, ?_, ?_⟩
        · simp only [dispatchedCount, List.map_append, List.sum_append, List.map_cons,
            List.map_nil, List.sum_cons, List.sum_nil, List.length_append, List.length_cons,
            List.length_nil, hlink, List.length_map] at hlen ⊢
          omega
        · intro n
          have hc := hcnt n
          rw [hceq, hlink]
          simp only [List.map_append, List.count_append, List.flatten_append,
            List.flatten_cons, List.flatten_nil, List.map_map, List.map_cons, List.map_nil,
            List.count_cons, List.count_nil, List.append_nil, map_comp_toCanon,
            map_fst_rid_pair, toCanon_rid] at hc ⊢
          omega
      · rw [Bool.not_eq_true] at hp
        by_cases hbr : mfs ≤ st.failure_streak + 1
        · rw [stepRow_full_fail_break post bs mfs st row c htr hf hp hbr]
          refine ⟨by rw [hceq, hlink]; simp, ?_, ?_⟩
          · simp only [dispatchedCount, List.map_append, List.sum_append, List.map_cons,
              List.map_nil, List.sum_cons, List.sum_nil, List.length_append, List.length_cons,
              List.length_nil, List.length_map, hlink] at hlen ⊢
            omega
          · intro n
            have hc := hcnt n
            rw [hceq, hlink]
            simp only [List.map_append, List.count_append, List.flatten_append,
              List.flatten_cons, List.flatten_nil, List.map_map, List.map_cons, List.map_nil,
              List.count_cons, List.count_nil, List.append_nil, map_comp_toCanon,
              map_fst_rid_pair, toCanon_rid] at hc ⊢
            omega
        · rw [stepRow_full_fail_cont post bs mfs st row c htr hf hp hbr]
          refine ⟨rfl, ?_, ?_⟩
          · simp only [dispatchedCount, List.map_append, List.sum_append, List.map_cons,
              List.map_nil, List.sum_cons, List.sum_nil, List.length_append, List.length_cons,
              List.length_nil, List.length_map, hlink] at hlen ⊢
            omega
          · intro n
            have hc := hcnt n
            rw [hceq, hlink]
            simp only [List.map_append, List.count_append, List.flatten_append,
              List.flatten_cons, List.flatten_nil, List.map_map, List.map_cons, List.map_nil,
              List.count_cons, List.count_nil, List.append_nil, map_comp_toCanon,
              map_fst_rid_pair, toCanon_rid] at hc ⊢
            omega
    · rw [stepRow_nofull post bs mfs st row c htr hf]
      refine ⟨by rw [hceq, hlink]; simp, ?_, ?_⟩
      · simpa only [dispatchedCount] using hlen
      · intro n
        exact hcnt n

theorem cntInv_drain (post : Nat → Bool × String) (st : LoopState)
    (h : CntInv st) : CntInv (drainBatch post st) := by
  obtain ⟨hlink, hlen, hcnt⟩ := h
  by_cases he : st.batch_payload.isEmpty = true
  · rw [drainBatch_empty post st he]
    exact ⟨hlink, hlen, hcnt⟩
  · rw [Bool.not_eq_true] at he
    by_cases hp : (post st.posts.length).1 = true
    · rw [drainBatch_succ post st he hp]
      refine ⟨hlink, ?_, ?_⟩
      · simp only [dispatchedCount, List.map_append, List.sum_append, List.map_cons,
          List.map_nil, List.sum_cons, List.sum_nil, List.length_append, List.length_map,
          hlink] at hlen ⊢
        omega
      · intro n
        have hc := hcnt n
        rw [hlink]
        simp only [List.map_append, List.count_append, List.flatten_append,
          List.flatten_cons, List.flatten_nil, List.map_map, List.append_nil,
          map_comp_toCanon, map_fst_rid_pair, toCanon_rid] at hc ⊢
        omega
    · rw [Bool.not_eq_true] at hp
      rw [drainBatch_fail post st he hp]
      refine ⟨hlink, ?_, ?_⟩
      · simp only [dispatchedCount, List.map_append, List.sum_append, List.map_cons,
          List.map_nil, List.sum_cons, List.sum_nil, List.length_append, List.length_map,
          hlink] at hlen ⊢
        omega
      · intro n
        have hc := hcnt n
        rw [hlink]
        simp only [List.map_append, List.count_append, List.flatten_append,
          List.flatten_cons, List.flatten_nil, List.map_map, List.map_cons, List.map_nil,
          List.count_cons, List.count_nil, List.append_nil, map_comp_toCanon,
          map_fst_rid_pair, toCanon_rid] at hc ⊢
        omega

theorem cntInv_run (post : Nat → Bool × String) (bs mfs : Nat) :
    ∀ (rows : List RawRow) (st : LoopState), CntInv st →
      CntInv (runLoop post bs mfs st rows) := by
  intro rows
  induction rows with
  | nil => intro st h; exact h
  | cons row rest ih =>
    intro st h
    rw [runLoop_cons]
    by_cases hb : st.broken = true
    · rw [if_pos hb]; exact h
    · rw [if_neg hb]
      exact ih _ (cntInv_step post bs mfs st row h)

/-- Per row id, the transformed records and the transform-failed rows of a
row list split its occurrences exactly. -/
theorem count_split (rows : List RawRow) (n : Nat) :
    ((transformedOf rows).map Canonical.rid).count n
      + ((tfailedOf rows).map RawRow.rid).count n
    = (rows.map RawRow.rid).count n := by
  induction rows with
  | nil => rfl
  | cons r rest ih =>
    cases htr : transform_row r with
    | error e =>
      have h1 : (transform_row r).toOption = none := by rw [htr]; rfl
      simp only [transformedOf, tfailedOf] at ih ⊢
      simp [List.filterMap_cons, List.filter_cons, h1, List.count_cons]
      omega
    | ok c =>
      have h1 : (transform_row r).toOption = some c := by rw [htr]; rfl
      have h2 : c.rid = r.rid := by rw [transform_ok_eq htr]; rfl
      simp only [transformedOf, tfailedOf] at ih ⊢
      simp [List.filterMap_cons, List.filter_cons, h1, List.count_cons, h2]
      omega

theorem transformedOf_append (seen : List RawRow) (row : RawRow) :
    transformedOf (seen ++ [row]) = transformedOf seen ++ transformedOf [row] := by
  simp [transformedOf, List.filterMap_append]

theorem tfailedOf_append (seen : List RawRow) (row : RawRow) :
    tfailedOf (seen ++ [row]) = tfailedOf seen ++ tfailedOf [row] := by
  simp [tfailedOf, List.filter_append]

theorem transformedOf_single_err {row : RawRow} {e : ExcObj}
    (htr : transform_row row = Except.error e) : transformedOf [row] = [] := by
  have h1 : (transform_row row).toOption = none := by rw [htr]; rfl
  simp [transformedOf, h1]

theorem transformedOf_single_ok {row : RawRow} {c : Canonical}
    (htr : transform_row row = Except.ok c) : transformedOf [row] = [c] := by
  have h1 : (transform_row row).toOption = some c := by rw [htr]; rfl
  simp [transformedOf, h1]

theorem tfailedOf_single_err {row : RawRow} {e : ExcObj}
    (htr : transform_row row = Except.error e) : tfailedOf [row] = [row] := by
  have h1 : (transform_row row).toOption = none := by rw [htr]; rfl
  simp [tfailedOf, h1]

theorem tfailedOf_single_ok {row : RawRow} {c : Canonical}
    (htr : transform_row row = Except.ok c) : tfailedOf [row] = [] := by
  have h1 : (transform_row row).toOption = some c := by rw [htr]; rfl
  simp [tfailedOf, h1]

theorem goodState_step (post : Nat → Bool × String) (bs mfs : Nat) (seen : List RawRow)
    (st : LoopState) (row : RawRow) (hg : GoodState bs seen st) :
    (stepRow post bs mfs st row).broken = true ∨
      GoodState bs (seen ++ [row]) (stepRow post bs mfs st row) := by
  obtain ⟨hnb, hlink, hlt, hfull, hflat, htf⟩ := hg
  cases htr : transform_row row with
  | error e =>
    right
    rw [stepRow_tfail post bs mfs st row e htr]
    exact ⟨hnb, hlink, hlt, hfull,
      by rw [transformedOf_append, transformedOf_single_err htr]; simpa using hflat,
      by rw [tfailedOf_append, tfailedOf_single_err htr, htf]⟩
  | ok c =>
    have hceq : c = toCanon row := transform_ok_eq htr
    by_cases hf : bs ≤ st.batch_payload.length + 1
    · by_cases hp : (post st.posts.length).1 = true
      · right
        rw [stepRow_full_succ post bs mfs st row c htr hf hp]
        refine ⟨hnb, rfl, by simpa using (by omega : 0 < bs), ?_, ?_, ?_⟩
        · intro b hb
          rcases List.mem_append.mp hb with hb | hb
          · exact hfull b hb
          · have hbe : b = st.batch_payload ++ [c] := by simpa using hb
            subst hbe
            simp only [List.length_append, List.length_cons, List.length_nil]
            omega
        · rw [List.flatten_append, transformedOf_append, transformedOf_single_ok htr]
          simp only [List.flatten_cons, List.flatten_nil, List.append_nil]
          rw [← hflat]
          simp [List.append_assoc]
        · rw [tfailedOf_append, tfailedOf_single_ok htr, htf]
          simp
      · rw [Bool.not_eq_true] at hp
        by_cases hbr : mfs ≤ st.failure_streak + 1
        · left
          rw [stepRow_full_fail_break post bs mfs st row c htr hf hp hbr]
        · right
          rw [stepRow_full_fail_cont post bs mfs st row c htr hf hp hbr]
          refine ⟨hnb, rfl, by simpa using (by omega : 0 < bs), ?_, ?_, ?_⟩
          · intro b hb
            rcases List.mem_append.mp hb with hb | hb
            · exact hfull b hb
            · have hbe : b = st.batch_payload ++ [c] := by simpa using hb
              subst hbe
              simp only [List.length_append, List.length_cons, List.length_nil]
              omega
          · rw [List.flatten_append, transformedOf_append, transformedOf_single_ok htr]
            simp only [List.flatten_cons, List.flatten_nil, List.append_nil]
            rw [← hflat]
            simp [List.append_assoc]
          · rw [tfailedOf_append, tfailedOf_single_ok htr, htf]
            simp
    · right
      rw [stepRow_nofull post bs mfs st row c htr hf]
      refine ⟨hnb, by rw [hlink, hceq]; simp, by simp; omega, hfull, ?_, ?_⟩
      · rw [transformedOf_append, transformedOf_single_ok htr, ← hflat]
        simp [List.append_assoc]
      · rw [tfailedOf_append, tfailedOf_single_ok htr, htf]
        simp

theorem goodState_run (post : Nat → Bool × String) (bs mfs : Nat) :
    ∀ (rows seen : List RawRow) (st : LoopState), GoodState bs seen st →
      (runLoop post bs mfs st rows).broken = true ∨
        GoodState bs (seen ++ rows) (runLoop post bs mfs st rows) := by
  intro rows
  induction rows with
  | nil =>
    intro seen st hg
    right
    simpa [runLoop_nil] using hg
  | cons row rest ih =>
    intro seen st hg
    rw [runLoop_cons_active post bs mfs st row rest hg.1]
    rcases goodState_step post bs mfs seen st row hg with hbk | hg2
    · left
      rw [runLoop_broken post bs mfs _ rest hbk]
      exact hbk
    · rcases ih (seen ++ [row]) _ hg2 with hbk | hg3
      · exact Or.inl hbk
      · right
        simpa [List.append_assoc] using hg3

theorem goodState_init (bs : Nat) (hbs : 0 < bs) : GoodState bs [] initState := by
  refine ⟨rfl, rfl, hbs, ?_, rfl, rfl⟩
  intro b hb
  simp [initState] at hb

theorem goodState_drain (post : Nat → Bool × String) (bs : Nat) (seen : List RawRow)
    (st : LoopState) (hg : GoodState bs seen st) :
    (drainBatch post st).broken = st.broken ∧
    (drainBatch post st).posts.flatten = transformedOf seen ∧
    (∀ b ∈ (drainBatch post st).posts, b.length ≤ bs ∧ b ≠ []) ∧
    (∀ b ∈ (drainBatch post st).posts.dropLast, b.length = bs) ∧
    (drainBatch post st).tfailRows = tfailedOf seen := by
  obtain ⟨hnb, hlink, hlt, hfull, hflat, htf⟩ := hg
  by_cases he : st.batch_payload.isEmpty = true
  · rw [drainBatch_empty post st he]
    have hpe : st.batch_payload = [] := List.isEmpty_iff.mp he
    refine ⟨rfl, ?_, ?_, ?_, htf⟩
    · rw [← hflat, hpe]
      simp
    · intro b hb
      have hbl := hfull b hb
      refine ⟨le_of_eq hbl, ?_⟩
      intro hbe
      rw [hbe] at hbl
      simp at hbl
      omega
    · intro b hb
      exact hfull b (List.dropLast_subset _ hb)
  · rw [Bool.not_eq_true] at he
    have hflat2 : ∀ st2 : LoopState, st2.posts = st.posts ++ [st.batch_payload] →
        st2.tfailRows = st.tfailRows →
        st2.posts.flatten = transformedOf seen ∧
        (∀ b ∈ st2.posts, b.length ≤ bs ∧ b ≠ []) ∧
        (∀ b ∈ st2.posts.dropLast, b.length = bs) ∧
        st2.tfailRows = tfailedOf seen := by
      intro st2 hps htfs
      refine ⟨?_, ?_, ?_, by rw [htfs, htf]⟩
      · rw [hps, List.flatten_append]
        simpa using hflat
      · intro b hb
        rw [hps] at hb
        rcases List.mem_append.mp hb with hb | hb
        · have := hfull b hb
          refine ⟨le_of_eq this, ?_⟩
          intro hbe
          rw [hbe] at this
          simp at this
          omega
        · have hbe : b = st.batch_payload := by simpa using hb
          subst hbe
          refine ⟨le_of_lt hlt, ?_⟩
          intro hbe
          rw [hbe] at he
          simp at he
      · intro b hb
        rw [hps, List.dropLast_concat] at hb
        exact hfull b hb
    by_cases hp : (post st.posts.length).1 = true
    · rw [drainBatch_succ post st he hp]
      exact ⟨rfl, hflat2 _ rfl rfl⟩
    · rw [Bool.not_eq_true] at hp
      rw [drainBatch_fail post st he hp]
      exact ⟨rfl, hflat2 _ rfl rfl⟩

/-! ## Claim theorems -/

/-- C2: for `send_batch_async` with `maxRetries = R`, if the first
successful network attempt is attempt `k` (0-indexed; `k` may exceed `R`,
meaning no attempt within the budget succeeds), then: the total number of
network attempts is `min(k + 1, R + 1)`; the call succeeds iff `k ≤ R`
(a 2xx response returns success immediately, after exactly `k + 1`
attempts); the backoff delays slept between consecutive failed attempts
are exactly 2, 4, 8, …, strictly doubling from 2; and failure is returned
only once the attempt counter exceeds `R`. -/
theorem C2_send_batch_retry_backoff (outcome : Nat → AttemptOutcome) (R k : Nat)
    (hfail : ∀ j, j < k → (attemptExc (outcome j)).isSome = true)
    (hsucc : k ≤ R → attemptExc (outcome k) = none) :
    (send_batch_async outcome R).numAttempts = min (k + 1) (R + 1) ∧
    (send_batch_async outcome R).success = decide (k ≤ R) ∧
    (send_batch_async outcome R).sleeps
      = (List.range (min k R)).map (fun i => 2 ^ (i + 1)) ∧
    ((send_batch_async outcome R).success = true →
      (send_batch_async outcome R).numAttempts = k + 1) ∧
    ((send_batch_async outcome R).success = false →
      R < (send_batch_async outcome R).numAttempts) := by
  by_cases hkR : k ≤ R
  · have h := sendLoopF_succ_case outcome R k (hsucc hkR) hfail hkR k 0 (by omega) (by omega)
    have he : send_batch_async outcome R
        = ⟨true, "", k + 1, (List.range k).map fun i => 2 ^ (i + 1)⟩ := by
      unfold send_batch_async
      simpa using h
    have hm1 : min (k + 1) (R + 1) = k + 1 := by omega
    have hm2 : min k R = k := by omega
    rw [he, hm1, hm2]
    exact ⟨rfl, by simp [hkR], rfl, fun _ => rfl, by intro hco; simp at hco⟩
  · have hfail' : ∀ j, j ≤ R → (attemptExc (outcome j)).isSome = true := by
      intro j hj; exact hfail j (by omega)
    have h := sendLoopF_fail_case outcome R hfail' R 0 (by omega) (by omega)
    have he : send_batch_async outcome R
        = ⟨false, excReason ((attemptExc (outcome R)).getD default), R + 1,
            (List.range R).map fun i => 2 ^ (i + 1)⟩ := by
      unfold send_batch_async
      simpa using h
    have hm1 : min (k + 1) (R + 1) = R + 1 := by omega
    have hm2 : min k R = R := by omega
    rw [he, hm1, hm2]
    exact ⟨rfl, by simp [hkR], rfl, by intro hco; simp at hco,
      by intro hco; show R < R + 1; omega⟩

/-- Witness for C2 at a concrete input: the first attempt gets a 200
response (`k = 0`, `R = 2`). -/
theorem C2_send_batch_retry_backoff_witness :
    (send_batch_async okOutcome 2).numAttempts = min (0 + 1) (2 + 1) ∧
    (send_batch_async okOutcome 2).success = decide (0 ≤ 2) ∧
    (send_batch_async okOutcome 2).sleeps
      = (List.range (min 0 2)).map (fun i => 2 ^ (i + 1)) ∧
    ((send_batch_async okOutcome 2).success = true →
      (send_batch_async okOutcome 2).numAttempts = 0 + 1) ∧
    ((send_batch_async okOutcome 2).success = false →
      2 < (send_batch_async okOutcome 2).numAttempts) :=
  C2_send_batch_retry_backoff okOutcome 2 0
    (fun j hj => absurd hj (Nat.not_lt_zero j)) (fun _ => rfl)

/-- C6 (code bug): against a server that answers 500
"Internal Server Error" on every attempt, the post fails after exhausting
retries but the returned reason is the constant
"HTTP Unknown - Couldn't get response", not
"HTTP 500 - Internal Server Error" as the spec states: line 159 builds the
spec's string and raises it as a plain `Exception`'s message, and the
handler then probes the `reason`/`status` attributes that a plain
exception does not have. -/
theorem C6_failure_reason_constant :
    send_batch_async http500 2
      = ⟨false, "HTTP Unknown - Couldn't get response", 3, [2, 4]⟩ ∧
    ((attemptExc (http500 0)).getD default).message
      = "HTTP 500 - Internal Server Error" ∧
    "HTTP Unknown - Couldn't get response" ≠ "HTTP 500 - Internal Server Error" := by
  decide

/-- C1 (code bug): with `maxFailureStreak = MAX_RETRY = 2` and every post
failing, the breaker trips at the second posted batch (the row loop ends
broken with streak 2 having submitted 2 batches) — yet the run as a whole
submits a third batch: the `break` skips the `batch_payload.clear()`, so
the final drain re-posts the batch that just failed, and its rows are
appended to `failed_rows` a second time (6 failed entries from 4 rows). -/
theorem C1_circuit_breaker_drain_resubmits :
    (runLoop failPost 2 MAX_RETRY initState rows4).broken = true ∧
    (runLoop failPost 2 MAX_RETRY initState rows4).failure_streak = MAX_RETRY ∧
    (runLoop failPost 2 MAX_RETRY initState rows4).posts.length = 2 ∧
    (post_batches_with_success_tracking failPost 2 rows4).posts
      = [[⟨1⟩, ⟨2⟩], [⟨3⟩, ⟨4⟩], [⟨3⟩, ⟨4⟩]] ∧
    (post_batches_with_success_tracking failPost 2 rows4).failed_rows.length = 6 := by
  decide


/-- C3 (corrected): the claim's accounting holds once transform-failed rows
are counted alongside dispatched rows.  At every point of the loop — the
initial state, after each loop iteration from a not-yet-broken state, and
through the final drain — the pending payload mirrors the pending rows,
`len(successful_rows) + len(failed_rows)` equals the number of row slots
dispatched plus the number of transform failures, and per row id the
successful/failed occurrences match the dispatched/transform-failed
occurrences.  Moreover, in a run the breaker does not trip whose row ids
are distinct, every dispatched record occurs in `successful_rows` together
with `failed_rows` exactly once. -/
theorem C3_accounting_amended (post : Nat → Bool × String) (bs mfs : Nat) :
    CntInv initState ∧
    (∀ (st : LoopState) (row : RawRow), st.broken = false → CntInv st →
      CntInv (stepRow post bs mfs st row)) ∧
    (∀ st : LoopState, CntInv st → CntInv (drainBatch post st)) ∧
    (∀ rows : List RawRow, 0 < bs →
      (post_batches_with_success_tracking post bs rows).broken = false →
      (rows.map RawRow.rid).Nodup →
      ∀ c ∈ (post_batches_with_success_tracking post bs rows).posts.flatten,
        ((post_batches_with_success_tracking post bs rows).successful_rows.map
            RawRow.rid).count c.rid
          + (((post_batches_with_success_tracking post bs rows).failed_rows.map
              fun p => p.1.rid).count c.rid) = 1) := by
  refine ⟨cntInv_init, fun st row _ h => cntInv_step post bs mfs st row h,
    fun st h => cntInv_drain post st h, ?_⟩
  intro rows hbs hnb hnodup c hc
  have hcc : CntInv (post_batches_with_success_tracking post bs rows) :=
    cntInv_drain post _ (cntInv_run post bs MAX_RETRY rows initState cntInv_init)
  obtain ⟨_, _, hcnt⟩ := hcc
  have hrun := goodState_run post bs MAX_RETRY rows [] initState (goodState_init bs hbs)
  rcases hrun with hbk | hg
  · exfalso
    unfold post_batches_with_success_tracking at hnb
    rw [drainBatch_broken] at hnb
    rw [hnb] at hbk
    cases hbk
  · have hdr := goodState_drain post bs ([] ++ rows) _ hg
    have hflat : (post_batches_with_success_tracking post bs rows).posts.flatten
        = transformedOf rows := by
      unfold post_batches_with_success_tracking
      simpa using hdr.2.1
    have htf : (post_batches_with_success_tracking post bs rows).tfailRows
        = tfailedOf rows := by
      unfold post_batches_with_success_tracking
      simpa using hdr.2.2.2.2
    have hsplit := count_split rows c.rid
    have hle : (rows.map RawRow.rid).count c.rid ≤ 1 :=
      List.nodup_iff_count_le_one.mp hnodup c.rid
    have hmem : c.rid ∈ (transformedOf rows).map Canonical.rid := by
      rw [← hflat]
      exact List.mem_map_of_mem _ hc
    have hpos : 0 < ((transformedOf rows).map Canonical.rid).count c.rid :=
      List.count_pos_iff.mpr hmem
    have hone : ((transformedOf rows).map Canonical.rid).count c.rid = 1 ∧
        ((tfailedOf rows).map RawRow.rid).count c.rid = 0 := by omega
    have hcn := hcnt c.rid
    rw [hflat, htf] at hcn
    omega

/-- Witness for C3 at a concrete input: one loop iteration from the
initial state preserves the accounting invariant. -/
theorem C3_accounting_amended_witness :
    CntInv (stepRow okPost 2 2 initState (rowOk 1)) :=
  (C3_accounting_amended okPost 2 2).2.1 initState (rowOk 1) rfl
    ((C3_accounting_amended okPost 2 2).1)

/-- C3 counterexample: the claim as stated is false.  A run over a single
row whose transformation fails completes without the breaker tripping,
dispatches no row, yet has `len(successful) + len(failed) = 1 ≠ 0 =`
rows dispatched — `failed_rows` also holds rows that were never
transformed or dispatched, so the two collections do not partition the
dispatched rows. -/
theorem C3_counterexample :
    (post_batches_with_success_tracking failPost 2 [rowBad]).broken = false ∧
    (post_batches_with_success_tracking failPost 2 [rowBad]).successful_rows.length
        + (post_batches_with_success_tracking failPost 2 [rowBad]).failed_rows.length = 1 ∧
    dispatchedCount (post_batches_with_success_tracking failPost 2 [rowBad]) = 0 ∧
    (post_batches_with_success_tracking failPost 2 [rowBad]).successful_rows.length
        + (post_batches_with_success_tracking failPost 2 [rowBad]).failed_rows.length
      ≠ dispatchedCount (post_batches_with_success_tracking failPost 2 [rowBad]) := by
  decide

/-- C4: for every dispatched batch — a full batch inside the loop, or the
final drain — a success outcome appends exactly the batch's rows to
`successful_rows` in batch order (and leaves `failed_rows` unchanged),
and a failure outcome appends exactly the batch's rows to `failed_rows`,
each paired with the returned failure reason, in batch order (and leaves
`successful_rows` unchanged). -/
theorem C4_batch_outcome_appends (post : Nat → Bool × String) (bs mfs : Nat)
    (st : LoopState) (row : RawRow) (c : Canonical)
    (htr : transform_row row = Except.ok c)
    (hfull : bs ≤ st.batch_payload.length + 1) :
    ((post st.posts.length).1 = true →
      (stepRow post bs mfs st row).successful_rows
          = st.successful_rows ++ (st.batch_rows ++ [row]) ∧
      (stepRow post bs mfs st row).failed_rows = st.failed_rows) ∧
    ((post st.posts.length).1 = false →
      (stepRow post bs mfs st row).failed_rows
          = st.failed_rows
            ++ (st.batch_rows ++ [row]).map (fun r => (r, (post st.posts.length).2)) ∧
      (stepRow post bs mfs st row).successful_rows = st.successful_rows) ∧
    (st.batch_payload.isEmpty = false →
      ((post st.posts.length).1 = true →
        (drainBatch post st).successful_rows = st.successful_rows ++ st.batch_rows ∧
        (drainBatch post st).failed_rows = st.failed_rows) ∧
      ((post st.posts.length).1 = false →
        (drainBatch post st).failed_rows
            = st.failed_rows ++ st.batch_rows.map (fun r => (r, (post st.posts.length).2)) ∧
        (drainBatch post st).successful_rows = st.successful_rows)) := by
  refine ⟨?_, ?_, ?_⟩
  · intro hp
    rw [stepRow_full_succ post bs mfs st row c htr hfull hp]
    exact ⟨rfl, rfl⟩
  · intro hp
    by_cases hbr : mfs ≤ st.failure_streak + 1
    · rw [stepRow_full_fail_break post bs mfs st row c htr hfull hp hbr]
      exact ⟨rfl, rfl⟩
    · rw [stepRow_full_fail_cont post bs mfs st row c htr hfull hp hbr]
      exact ⟨rfl, rfl⟩
  · intro he
    constructor
    · intro hp
      rw [drainBatch_succ post st he hp]
      exact ⟨rfl, rfl⟩
    · intro hp
      rw [drainBatch_fail post st he hp]
      exact ⟨rfl, rfl⟩

/-- Witness for C4 at a concrete input: posting the full batch `[r1, r2]`
succeeds and appends both rows, in order, to `successful_rows`. -/
theorem C4_batch_outcome_appends_witness :
    (stepRow okPost 2 2 stOne (rowOk 2)).successful_rows
        = stOne.successful_rows ++ (stOne.batch_rows ++ [rowOk 2]) ∧
    (stepRow okPost 2 2 stOne (rowOk 2)).failed_rows = stOne.failed_rows :=
  (C4_batch_outcome_appends okPost 2 2 stOne (rowOk 2) (Canonical.mk 2) rfl
    (by decide)).1 rfl

/-- C5 (corrected): in every run in which the circuit breaker does not
trip (and with the positive configured batch size), the posted batches are
exactly the successfully-transformed records in row order, split into
contiguous groups: concatenating the dispatched batches yields
`transformedOf rows` (so every transformed record is dispatched in exactly
one batch, and a trailing partial batch is drained after the input is
exhausted), every dispatched batch is non-empty with size at most
`batch_size`, and every batch except possibly the last is exactly full. -/
theorem C5_batches_amended (post : Nat → Bool × String) (bs : Nat) (rows : List RawRow)
    (hbs : 0 < bs)
    (hnb : (post_batches_with_success_tracking post bs rows).broken = false) :
    (post_batches_with_success_tracking post bs rows).posts.flatten
        = transformedOf rows ∧
    (∀ b ∈ (post_batches_with_success_tracking post bs rows).posts,
      b.length ≤ bs ∧ b ≠ []) ∧
    (∀ b ∈ (post_batches_with_success_tracking post bs rows).posts.dropLast,
      b.length = bs) := by
  have hrun := goodState_run post bs MAX_RETRY rows [] initState (goodState_init bs hbs)
  rcases hrun with hbk | hg
  · exfalso
    unfold post_batches_with_success_tracking at hnb
    rw [drainBatch_broken] at hnb
    rw [hnb] at hbk
    cases hbk
  · have hdr := goodState_drain post bs ([] ++ rows) _ hg
    unfold post_batches_with_success_tracking
    refine ⟨by simpa using hdr.2.1, hdr.2.2.1, hdr.2.2.2.1⟩

/-- Witness for C5 at a concrete input: three rows, batch size 2, all
posts succeeding — one full batch plus a drained partial batch. -/
theorem C5_batches_amended_witness :
    (post_batches_with_success_tracking okPost 2 rows3).posts.flatten
        = transformedOf rows3 ∧
    (∀ b ∈ (post_batches_with_success_tracking okPost 2 rows3).posts,
      b.length ≤ 2 ∧ b ≠ []) ∧
    (∀ b ∈ (post_batches_with_success_tracking okPost 2 rows3).posts.dropLast,
      b.length = 2) :=
  C5_batches_amended okPost 2 rows3 (by decide) (by decide)

/-- C5 counterexample: the claim as stated is false for runs in which the
breaker trips.  With four transform-clean rows and every post failing,
record 3 is dispatched in two batches (the tripped batch is re-posted by
the drain), so it does not belong to exactly one dispatched batch. -/
theorem C5_counterexample :
    (post_batches_with_success_tracking failPost 2 rows4).broken = true ∧
    (post_batches_with_success_tracking failPost 2 rows4).posts.flatten.count
        (Canonical.mk 3) = 2 := by
  decide

/-- C7 (corrected): a row whose transformation raises is appended — as the
original raw row, never entering the batch — to `failed_rows`, and the
loop continues with the next row; but the attached reason is not
`"transform error: <detail>"`: it is the same HTTP-template string the
batch handler builds, which for the builtin exceptions `transform_row`
can raise (no `reason`/`status` attributes) is always
`"HTTP Unknown - Couldn't get response"`. -/
theorem C7_transform_failure_amended (post : Nat → Bool × String) (bs mfs : Nat)
    (st : LoopState) (row : RawRow) (e : ExcObj) (rest : List RawRow)
    (htr : transform_row row = Except.error e) (hnb : st.broken = false) :
    stepRow post bs mfs st row
      = { st with failed_rows := st.failed_rows ++ [(row, excReason e)],
                  tfailRows := st.tfailRows ++ [row] } ∧
    (e.reasonAttr = none → e.statusAttr = none →
      excReason e = "HTTP Unknown - Couldn't get response") ∧
    runLoop post bs mfs st (row :: rest)
      = runLoop post bs mfs (stepRow post bs mfs st row) rest := by
  refine ⟨stepRow_tfail post bs mfs st row e htr, ?_,
    runLoop_cons_active post bs mfs st row rest hnb⟩
  intro h1 h2
  rcases e with ⟨m, ra, sa⟩
  cases h1
  cases h2
  rfl

/-- Witness for C7 at a concrete input: a malformed row in front of a
well-formed one is failed with the constant reason and the loop moves
on. -/
theorem C7_transform_failure_amended_witness :
    (stepRow okPost 2 2 initState rowBad
      = { initState with
            failed_rows := initState.failed_rows ++ [(rowBad, excReason rowBadExc)],
            tfailRows := initState.tfailRows ++ [rowBad] }) ∧
    (rowBadExc.reasonAttr = none → rowBadExc.statusAttr = none →
      excReason rowBadExc = "HTTP Unknown - Couldn't get response") ∧
    runLoop okPost 2 2 initState (rowBad :: [rowOk 1])
      = runLoop okPost 2 2 (stepRow okPost 2 2 initState rowBad) [rowOk 1] :=
  C7_transform_failure_amended okPost 2 2 initState rowBad rowBadExc [rowOk 1] rfl rfl

/-- C7 counterexample: the reason attached to a transform-failed row is
`"HTTP Unknown - Couldn't get response"`, which does not have the claimed
`"transform error: <detail>"` form. -/
theorem C7_counterexample :
    (post_batches_with_success_tracking okPost 2 [rowBad]).failed_rows
      = [(rowBad, "HTTP Unknown - Couldn't get response")] ∧
    ("transform error".data.isPrefixOf
      "HTTP Unknown - Couldn't get response".data) = false := by
  decide


theorem archive_ops_eq (cf dfl : String → Bool) (keys : List String) (pfx : String) :
    (archive_files cf dfl keys pfx).ops
      = (keys.map (archOpsFor cf dfl pfx)).flatten := by
  induction keys with
  | nil => rfl
  | cons k rest ih =>
    by_cases h1 : cf k
    · simp [archive_files, archOpsFor, h1, ih]
    · by_cases h2 : dfl k <;> simp [archive_files, archOpsFor, h1, h2, ih]

theorem archive_archived_eq (cf dfl : String → Bool) (keys : List String) (pfx : String) :
    (archive_files cf dfl keys pfx).archived
      = (keys.filter fun k => !cf k && !dfl k).map (archive_key_of pfx) := by
  induction keys with
  | nil => rfl
  | cons k rest ih =>
    by_cases h1 : cf k
    · simp [archive_files, h1, ih]
    · by_cases h2 : dfl k <;> simp [archive_files, h1, h2, ih]

theorem copy_src_mem (cf dfl : String → Bool) (keys : List String) (pfx s d : String)
    (h : S3Op.copy s d ∈ (archive_files cf dfl keys pfx).ops) : s ∈ keys := by
  rw [archive_ops_eq] at h
  obtain ⟨l, hl, hop⟩ := List.mem_flatten.mp h
  obtain ⟨k, hk, hlk⟩ := List.mem_map.mp hl
  subst hlk
  unfold archOpsFor at hop
  by_cases h1 : cf k
  · rw [if_pos h1] at hop
    cases hop
  · rw [if_neg h1] at hop
    by_cases h2 : dfl k
    · rw [if_pos h2] at hop
      have : S3Op.copy s d = S3Op.copy k (archive_key_of pfx k) := by simpa using hop
      cases this
      exact hk
    · rw [if_neg h2] at hop
      rcases List.mem_cons.mp hop with heq | hop2
      · cases heq
        exact hk
      · simp at hop2

theorem copy_mem_archive (cf dfl : String → Bool) (keys : List String) (pfx key : String)
    (hk : key ∈ keys) (h1 : cf key = false) (h2 : dfl key = false) :
    S3Op.copy key (archive_key_of pfx key) ∈ (archive_files cf dfl keys pfx).ops := by
  rw [archive_ops_eq]
  refine List.mem_flatten.mpr ⟨archOpsFor cf dfl pfx key, List.mem_map_of_mem _ hk, ?_⟩
  unfold archOpsFor
  rw [h1, h2]
  simp

/-- C8: for every key handed to the archiver, the operations performed are
the per-key operations in key order (one file's copy/delete failure does
not disturb the others); for a key on which neither S3 call raises those
operations are exactly a copy of the original to
`<prefix>/archive/<original filename>` followed by a delete of the
original, and the archive key is recorded in `archived`; and within
`main`, the archive phase's operations are identical no matter what the
delivery phase's post outcomes were (archiving is not gated on delivery
outcome). -/
theorem C8_archiver (cf dfl : String → Bool) (keys : List String) (pfx : String) :
    (archive_files cf dfl keys pfx).ops
        = (keys.map (archOpsFor cf dfl pfx)).flatten ∧
    (∀ key, cf key = false → dfl key = false →
      archOpsFor cf dfl pfx key
        = [S3Op.copy key (pfx ++ "/archive/" ++ lastComponent key), S3Op.del key]) ∧
    (∀ key ∈ keys, cf key = false → dfl key = false →
      (pfx ++ "/archive/" ++ lastComponent key)
        ∈ (archive_files cf dfl keys pfx).archived) ∧
    (∀ (readOf : String → FileRead) (listing : List String)
        (p1 p2 : Nat → Bool × String) (wfail : String → Bool) (ts : String),
      (main_run readOf listing p1 cf dfl wfail ts pfx).archOps
        = (main_run readOf listing p2 cf dfl wfail ts pfx).archOps) := by
  refine ⟨archive_ops_eq cf dfl keys pfx, ?_, ?_, ?_⟩
  · intro key h1 h2
    unfold archOpsFor
    rw [h1, h2]
    simp [archive_key_of]
  · intro key hk h1 h2
    rw [archive_archived_eq]
    have : key ∈ keys.filter fun k => !cf k && !dfl k := by
      rw [List.mem_filter]
      exact ⟨hk, by rw [h1, h2]; rfl⟩
    exact List.mem_map_of_mem _ this
  · intro readOf listing p1 p2 wfail ts
    rfl

/-- Witness for C8 at a concrete input: with no S3 failure, `p/a.csv` is
recorded as archived under `p/archive/a.csv`. -/
theorem C8_archiver_witness :
    ("p" ++ "/archive/" ++ lastComponent "p/a.csv")
      ∈ (archive_files noFail noFail oneKeyList "p").archived :=
  (C8_archiver noFail noFail oneKeyList "p").2.2.1 "p/a.csv" (by decide) rfl rfl

theorem uploadLoop_eq (wfail : String → Bool) (ts pfx : String)
    (gs : List (String × List (RawRow × String))) :
    uploadLoop wfail ts pfx gs
      = gs.filterMap fun g =>
          if wfail (failed_artifact_key pfx ts g.1) then none
          else some (failed_artifact_key pfx ts g.1, g.2) := by
  induction gs with
  | nil => rfl
  | cons g rest ih =>
    rcases g with ⟨k, gr⟩
    by_cases h : wfail (failed_artifact_key pfx ts k)
    · simp [uploadLoop, h, ih]
    · simp [uploadLoop, h, ih]

theorem length_filterMap_some {α β : Type} (f : α → β) (l : List α) :
    (l.filterMap fun a => some (f a)).length = l.length := by
  induction l with
  | nil => rfl
  | cons a t ih => simp [List.filterMap_cons, ih]

/-- C9: the failure reporter writes nothing when `failed_rows` is empty;
otherwise it attempts exactly one artifact per distinct `source_file_key`
among the failed rows, the artifact for key `k` being the pair of the key
`<prefix>/failed/<stem>_failed_rows_<timestamp>.csv` and exactly the
failed rows (with their reasons) whose source is `k`, in original order —
and a write failure for one group drops only that group's artifact,
neither preventing nor duplicating the others; in particular with no
write failures the number of artifacts equals the number of distinct
source keys. -/
theorem C9_failure_reporter (wfail : String → Bool) (ts pfx : String)
    (frows : List (RawRow × String)) :
    upload_failed_rows_to_s3 wfail ts [] pfx = [] ∧
    upload_failed_rows_to_s3 wfail ts frows pfx
      = ((frows.map fun fr => fr.1.sourceKey).dedup).filterMap (fun k =>
          if wfail (failed_artifact_key pfx ts k) then none
          else some (failed_artifact_key pfx ts k,
            frows.filter fun fr => fr.1.sourceKey == k)) ∧
    ((∀ k2, wfail k2 = false) →
      (upload_failed_rows_to_s3 wfail ts frows pfx).length
        = ((frows.map fun fr => fr.1.sourceKey).dedup).length) := by
  have h2 : upload_failed_rows_to_s3 wfail ts frows pfx
      = ((frows.map fun fr => fr.1.sourceKey).dedup).filterMap (fun k =>
          if wfail (failed_artifact_key pfx ts k) then none
          else some (failed_artifact_key pfx ts k,
            frows.filter fun fr => fr.1.sourceKey == k)) := by
    by_cases hf : frows.isEmpty = true
    · have hfe : frows = [] := List.isEmpty_iff.mp hf
      subst hfe
      rfl
    · unfold upload_failed_rows_to_s3
      rw [if_neg (by simp [hf])]
      rw [uploadLoop_eq, List.filterMap_map]
      rfl
  refine ⟨rfl, h2, ?_⟩
  intro hwf
  rw [h2]
  have : (fun k => if wfail (failed_artifact_key pfx ts k) then none
      else some (failed_artifact_key pfx ts k,
        frows.filter fun fr => fr.1.sourceKey == k))
      = fun k => some (failed_artifact_key pfx ts k,
        frows.filter fun fr => fr.1.sourceKey == k) := by
    funext k
    rw [hwf (failed_artifact_key pfx ts k)]
    simp
  rw [this, length_filterMap_some]

/-- Witness for C9 at a concrete input: two failed rows from two source
files and no write failure produce exactly two artifacts. -/
theorem C9_failure_reporter_witness :
    (upload_failed_rows_to_s3 noFail "20260101000000" wFrows "p").length
      = ((wFrows.map fun fr => fr.1.sourceKey).dedup).length :=
  (C9_failure_reporter noFail "20260101000000" "p" wFrows).2.2 (fun _ => rfl)

theorem fetchGo_keys (readOf : String → FileRead) (pfx : String) (listing : List String) :
    (fetchGo readOf pfx listing).2
      = listing.filter fun k =>
          selectsKey pfx k && (walkBreaks (readOf k).chunks || !(readOf k).raises) := by
  induction listing with
  | nil => rfl
  | cons key rest ih =>
    by_cases h1 : selectsKey pfx key
    · by_cases h2 : (walkBreaks (readOf key).chunks || !(readOf key).raises) = true
      · simp [fetchGo, h1, h2, ih]
      · rw [Bool.not_eq_true] at h2
        simp [fetchGo, h1, h2, ih]
    · simp [fetchGo, h1, ih]

theorem collectChunks_break (key : String) (pre post2 : List Chunk)
    (h : Chunk.invalid ∉ pre) :
    collectChunks key (pre ++ Chunk.invalid :: post2) = collectChunks key pre ∧
    walkBreaks (pre ++ Chunk.invalid :: post2) = true := by
  induction pre with
  | nil => exact ⟨rfl, rfl⟩
  | cons ch rest ih =>
    have hni : Chunk.invalid ∉ rest := fun hm => h (List.mem_cons_of_mem _ hm)
    have hch : ch ≠ Chunk.invalid := fun he => h (he ▸ List.mem_cons_self _ _)
    obtain ⟨ih1, ih2⟩ := ih hni
    cases ch with
    | empty => exact ⟨by simpa [collectChunks] using ih1, by simpa [walkBreaks] using ih2⟩
    | invalid => exact absurd rfl hch
    | valid rows =>
      exact ⟨by simp [collectChunks, ih1], by simpa [walkBreaks] using ih2⟩

/-- C10 (corrected): `processed_keys` inside `fetch_all_csvs` is exactly
the selected keys whose chunk walk either breaks on an invalid chunk or
completes without the read raising — so a file with an invalid chunk
stops being read at that chunk (the chunks before it are what gets
collected) yet is processed and, provided at least one chunk was loaded
in the whole run, handed to the archiver, which attempts its copy; a file
whose read raises (without an earlier break) is not in `processed_keys`
and is never the source of an archive copy.  The proviso is forced by
line 119: when no chunk at all was appended the function discards
`processed_keys` and returns no keys, so nothing is archived. -/
theorem C10_fetch_amended (readOf : String → FileRead) (pfx : String)
    (listing : List String) :
    (fetchGo readOf pfx listing).2
        = listing.filter (fun k =>
            selectsKey pfx k && (walkBreaks (readOf k).chunks || !(readOf k).raises)) ∧
    (∀ (key : String) (pre post2 : List Chunk), Chunk.invalid ∉ pre →
      collectChunks key (pre ++ Chunk.invalid :: post2) = collectChunks key pre ∧
      walkBreaks (pre ++ Chunk.invalid :: post2) = true) ∧
    ((fetchGo readOf pfx listing).1.isEmpty = true →
      fetch_all_csvs readOf pfx listing = ([], [])) ∧
    ((fetchGo readOf pfx listing).1.isEmpty = false →
      (fetch_all_csvs readOf pfx listing).2 = (fetchGo readOf pfx listing).2) ∧
    (∀ key, selectsKey pfx key = true → walkBreaks (readOf key).chunks = false →
      (readOf key).raises = true → key ∉ (fetchGo readOf pfx listing).2) ∧
    (∀ (key : String) (cf dfl : String → Bool),
      key ∈ (fetch_all_csvs readOf pfx listing).2 →
      cf key = false → dfl key = false →
      S3Op.copy key (archive_key_of pfx key)
        ∈ (archive_files cf dfl (fetch_all_csvs readOf pfx listing).2 pfx).ops) ∧
    (∀ (key dst : String) (cf dfl : String → Bool),
      S3Op.copy key dst
          ∈ (archive_files cf dfl (fetch_all_csvs readOf pfx listing).2 pfx).ops →
      key ∈ (fetch_all_csvs readOf pfx listing).2) := by
  refine ⟨fetchGo_keys readOf pfx listing, collectChunks_break, ?_, ?_, ?_, ?_, ?_⟩
  · intro he
    unfold fetch_all_csvs
    rw [if_pos he]
  · intro he
    unfold fetch_all_csvs
    rw [if_neg (by simp [he])]
  · intro key h1 h2 h3
    rw [fetchGo_keys]
    intro hmem
    have := (List.mem_filter.mp hmem).2
    rw [h1, h2, h3] at this
    simp at this
  · intro key cf dfl hk h1 h2
    exact copy_mem_archive cf dfl _ pfx key hk h1 h2
  · intro key dst cf dfl h
    exact copy_src_mem cf dfl _ pfx key dst h

/-- Witness for C10 at a concrete input: `p/a.csv` (valid chunk then
invalid chunk, so the walk breaks) is processed and its archive copy is
attempted, while `p/b.csv` (valid chunk then a raising read) is not
processed. -/
theorem C10_fetch_amended_witness :
    S3Op.copy "p/a.csv" (archive_key_of "p" "p/a.csv")
        ∈ (archive_files noFail noFail (fetch_all_csvs wReadOf "p" wListing).2 "p").ops ∧
    "p/b.csv" ∉ (fetchGo wReadOf "p" wListing).2 :=
  ⟨(C10_fetch_amended wReadOf "p" wListing).2.2.2.2.2.1 "p/a.csv" noFail noFail
      (by decide) rfl rfl,
    (C10_fetch_amended wReadOf "p" wListing).2.2.2.2.1 "p/b.csv" (by decide)
      (by decide) (by decide)⟩

/-- C10 counterexample: the claim as stated is false.  A run whose only
file has a single invalid chunk loads no data, so `fetch_all_csvs`
returns `([], [])` (line 119 discards `processed_keys`) and the archiver
receives no keys: the file whose chunk failed validation is *not*
archived at job end. -/
theorem C10_counterexample :
    walkBreaks (badReadOf "p/a.csv").chunks = true ∧
    fetch_all_csvs badReadOf "p" oneListing = ([], []) ∧
    (main_run badReadOf oneListing okPost noFail noFail noFail "ts" "p").archOps
      = [] := by
  decide

end Etl
